import Mathlib

/-!
# Verification of the s3gw-arc release tool's version model and orchestrator

A shallow embedding of the core of `s3gw-arc-rs`:

* `Version` and its numeric ordering key (`src/version.rs`);
* the ref-index reconstruction `get_releases` (`src/ws/repository.rs`);
* the release-range query `get_release_versions` (`src/release/common.rs`);
* the orchestrator transitions `start`, `start_release_candidate`,
  `perform_release` (`src/release/process/start.rs`), `finish`
  (`src/release/process/finish.rs`), the command dispatch for `Start`
  (`src/release/cmds.rs`), and the validation gate `check_can_release`
  (`src/release/process/validate.rs`) together with the workflow-status
  helpers (`src/release/status.rs`);
* the chart version-file rewrite (`src/release/process/charts.rs`).

Side-effecting git / filesystem / network operations are modelled by an
oracle of outcomes; each function returns the list of mutation events it
performed together with its result, mirroring the control flow of the
source line by line.
-/

namespace S3gwArc

/-- `Version` from `src/version.rs`: `major.minor[.patch[-rcN]]`. -/
structure Version where
  major : Nat
  minor : Nat
  patch : Option Nat
  rc : Option Nat
deriving Repr, DecidableEq

namespace Version

/-- `get_version_id` from `src/version.rs`: absent `patch`/`rc` count as
`999`; the key is `major·10⁹ + minor·10⁶ + patch'·10³ + rc'`, computed in
`u64`, whose arithmetic wraps modulo `2⁶⁴` (release builds). -/
def get_version_id (v : Version) : Nat :=
  (v.major * 1000000000 + v.minor * 1000000 + (v.patch.getD 999) * 1000 + v.rc.getD 999)
    % 2 ^ 64

/-- `PartialEq for Version`: equality is comparison of `get_version_id`. -/
def rustEq (a b : Version) : Bool :=
  a.get_version_id == b.get_version_id

/-- `get_base_version`: drop `patch` and `rc`. -/
def get_base_version (v : Version) : Version :=
  { major := v.major, minor := v.minor, patch := none, rc := none }

/-- `get_release_version`: drop `rc` only; the source `assert!`s that
`patch` is set, so the result is `none` exactly when the source panics. -/
def get_release_version? (v : Version) : Option Version :=
  match v.patch with
  | none => none
  | some _ => some { major := v.major, minor := v.minor, patch := v.patch, rc := none }

/-- `min`: fill absent `patch`/`rc` with `0`. -/
def min (v : Version) : Version :=
  { v with patch := some (v.patch.getD 0), rc := some (v.rc.getD 0) }

/-- `max`: fill absent `patch`/`rc` with `999`. -/
def max (v : Version) : Version :=
  { v with patch := some (v.patch.getD 999), rc := some (v.rc.getD 999) }

end Version

/-- The lexicographic strict order on `(major, minor, patch-or-999, rc-or-999)`
used by the spec to describe monotonicity of `version_id`. -/
def lexLt (a b : Version) : Prop :=
  a.major < b.major ∨
    (a.major = b.major ∧
      (a.minor < b.minor ∨
        (a.minor = b.minor ∧
          ((a.patch.getD 999) < (b.patch.getD 999) ∨
            ((a.patch.getD 999) = (b.patch.getD 999) ∧
              (a.rc.getD 999) < (b.rc.getD 999))))))

instance (a b : Version) : Decidable (lexLt a b) := by
  unfold lexLt; infer_instance

/-- `v.max` has the same `version_id` as `v`: the id already encodes absent
`patch`/`rc` as `999`, exactly the values `max` fills in. -/
theorem max_get_version_id (v : Version) :
    v.max.get_version_id = v.get_version_id := by
  cases v with
  | mk major minor patch rc =>
    cases patch <;> cases rc <;> rfl

/-! ## Version parsing and rendering (`src/version.rs`) -/

/-- Digits of a numeric capture, folded to a `Nat` (Rust `str::parse::<u64>`). -/
def digitsToNat (l : List Char) : Nat :=
  l.foldl (fun n c => n * 10 + (c.toNat - 48)) 0

/-- Split a leading run of ASCII digits (maximal munch of `\d+`). -/
def takeDigits (s : List Char) : List Char × List Char :=
  (s.takeWhile Char.isDigit, s.dropWhile Char.isDigit)

/-- `Version::from_str`: the regex `^v?((\d+)\.(\d+)(?:\.(\d+)(?:-rc(\d+))?)?)$`.
Maximal-munch digit runs are equivalent to the regex here because every
digit run is followed by a non-digit or the end of the string. -/
def parseChars (s0 : List Char) : Option Version :=
  let s := match s0 with
    | 'v' :: rest => rest
    | _ => s0
  let (dmaj, s) := takeDigits s
  if dmaj = [] then none else
  match s with
  | '.' :: s =>
    let (dmin, s) := takeDigits s
    if dmin = [] then none else
    match s with
    | [] => some ⟨digitsToNat dmaj, digitsToNat dmin, none, none⟩
    | '.' :: s =>
      let (dpat, s) := takeDigits s
      if dpat = [] then none else
      match s with
      | [] => some ⟨digitsToNat dmaj, digitsToNat dmin, some (digitsToNat dpat), none⟩
      | '-' :: 'r' :: 'c' :: s =>
        let (drc, s) := takeDigits s
        if drc = [] then none else
        if s = [] then
          some ⟨digitsToNat dmaj, digitsToNat dmin, some (digitsToNat dpat),
            some (digitsToNat drc)⟩
        else none
      | _ => none
    | _ => none
  | _ => none

/-- `Version.from_str` on a string. -/
def Version.from_str (s : String) : Option Version :=
  parseChars s.data

/-- Decimal rendering of a `Nat` (Rust `Display` of `u64`). -/
def natChars (n : Nat) : List Char :=
  Nat.toDigits 10 n

/-- The `Display` impl / `get_version_str` of `Version`:
`major.minor[.patch][-rcN]`. -/
def displayChars (v : Version) : List Char :=
  natChars v.major ++ '.' :: natChars v.minor
    ++ (match v.patch with
        | none => []
        | some p => '.' :: natChars p)
    ++ (match v.rc with
        | none => []
        | some r => '-' :: 'r' :: 'c' :: natChars r)

/-! ## `BTreeMap<u64, _>` as a key-sorted association list -/

/-- A `BTreeMap<u64, α>`: association list kept sorted by key ascending. -/
abbrev KVMap (α : Type) := List (Nat × α)

/-- `BTreeMap::contains_key`. -/
def containsKey (k : Nat) (m : KVMap α) : Bool :=
  m.any (fun p => p.1 == k)

/-- `BTreeMap::insert` (replaces the value at an existing key), preserving
the ascending key order. -/
def insertKV (k : Nat) (v : α) : KVMap α → KVMap α
  | [] => [(k, v)]
  | (k', v') :: rest =>
    if k < k' then (k, v) :: (k', v') :: rest
    else if k = k' then (k, v) :: rest
    else (k', v') :: insertKV k v rest

/-- In-place update of the value at key `k` (used to model `get_mut`). -/
def modifyKV (k : Nat) (f : α → α) : KVMap α → KVMap α
  | [] => []
  | (k', v') :: rest =>
    if k = k' then (k', f v') :: rest else (k', v') :: modifyKV k f rest

/-! ## The version tree (`src/version.rs` / `src/ws/repository.rs`) -/

/-- `ReleaseEntry` from `src/version.rs`. -/
structure ReleaseEntry where
  release : Version
  versions : KVMap Version
  is_complete : Bool
deriving Repr, DecidableEq

/-- `BaseVersion` from `src/version.rs`. -/
structure BaseVersion where
  version : Version
  releases : KVMap ReleaseEntry
deriving Repr, DecidableEq

/-- `Repository::get_releases` from `src/ws/repository.rs`, parameterized by
the branch/tag regex capture functions (one capture group each, as the
source asserts) and acting on the branch and tag ref name lists. The result
is `none` exactly on the source's panics (`unwrap` of a branch-capture
parse, `assert!` in `get_release_version`). -/
def getReleases (branchCap tagCap : List Char → Option (List Char))
    (branchRefs tagRefs : List (List Char)) : Option (KVMap BaseVersion) := do
  let tree ← branchRefs.foldlM
    (fun (tree : KVMap BaseVersion) name =>
      match branchCap name with
      | none => some tree
      | some cap =>
        match parseChars cap with
        | none => none
        | some version =>
          let verid := version.get_version_id
          if containsKey verid tree then some tree
          else some (insertKV verid ⟨version, []⟩ tree))
    ([] : KVMap BaseVersion)
  tagRefs.foldlM
    (fun (tree : KVMap BaseVersion) name =>
      match tagCap name with
      | none => some tree
      | some cap =>
        match parseChars cap with
        | none => some tree
        | some version =>
          let baseId := version.get_base_version.get_version_id
          if ¬ containsKey baseId tree then some tree
          else
            match version.get_release_version? with
            | none => none
            | some relVer =>
              let relId := relVer.get_version_id
              some (modifyKV baseId
                (fun bv =>
                  let bv :=
                    if containsKey relId bv.releases then bv
                    else { bv with
                      releases := insertKV relId ⟨relVer, [], false⟩ bv.releases }
                  { bv with
                    releases := modifyKV relId
                      (fun entry =>
                        let entry :=
                          if version.rc = none then { entry with is_complete := true }
                          else entry
                        { entry with
                          versions :=
                            insertKV version.get_version_id version entry.versions })
                      bv.releases })
                tree))
    tree

/-- Test whether a char list is a nonempty run of digits. -/
def isDigits1 (s : List Char) : Bool :=
  decide (s ≠ []) && s.all Char.isDigit

/-- Strip a literal prefix, or fail. -/
def stripPrefixChars : List Char → List Char → Option (List Char)
  | [], s => some s
  | p :: ps, c :: cs => if p = c then stripPrefixChars ps cs else none
  | _ :: _, [] => none

/-- The capture of the branch pattern `^s3gw-v(\d+\.\d+)$`. -/
def capBranchS3gw (s : List Char) : Option (List Char) := do
  let rest ← stripPrefixChars "s3gw-v".data s
  let (d1, r) := takeDigits rest
  if d1 = [] then none else
  match r with
  | '.' :: r2 => if isDigits1 r2 then some rest else none
  | _ => none

/-- The capture of the tag pattern `^v(\d+\.\d+\.\d+.*)$`. -/
def capTagV (s : List Char) : Option (List Char) := do
  let rest ← stripPrefixChars "v".data s
  let (d1, r) := takeDigits rest
  if d1 = [] then none else
  match r with
  | '.' :: r2 =>
    let (d2, r3) := takeDigits r2
    if d2 = [] then none else
    match r3 with
    | '.' :: r4 =>
      let (d3, _) := takeDigits r4
      if d3 = [] then none else some rest
    | _ => none
  | _ => none

/-! ## Orchestrator state, effects and outcomes

Side-effecting git / filesystem / network operations are modelled by an
`Oracle` of operation outcomes; each orchestrator function returns the list
of mutation `Event`s it performed (an event is recorded only when the
corresponding operation succeeds) together with its result, following the
source control flow statement by statement. -/

/-- The four repositories of a workspace (`Repos` in `src/ws/repository.rs`). -/
inductive RepoId where
  | s3gw
  | ui
  | charts
  | ceph
deriving Repr, DecidableEq

/-- The dependent repositories, in the fixed order of `get_submodules`
(`src/release/process/submodules.rs`). -/
def depRepos : List RepoId := [.ui, .charts, .ceph]

/-- `Repos::as_vec` order (`src/ws/repository.rs`). -/
def allRepos : List RepoId := [.s3gw, .ui, .charts, .ceph]

/-- `ReleaseError` from `src/release/errors.rs`. -/
inductive ReleaseError where
  | AbortedError
  | CorruptedError
  | NotStartedError
  | ReleaseExistsError
  | ReleaseStartedError
  | StagingError
  | CommittingError
  | PushingError
  | SubmoduleError
  | TaggingError
  | SyncError
  | ReleaseBuildOnGoingError
  | ReleaseBuildFailedError
  | ReleaseBuildNotFoundError
  | UnknownError
deriving Repr, DecidableEq

/-- Rust `Result<α, ReleaseError>`. -/
inductive RResult (α : Type) where
  | ok (a : α)
  | error (e : ReleaseError)
deriving Repr, DecidableEq

/-- Observable mutations performed by the orchestrator. -/
inductive Event where
  | tag (r : RepoId) (relver tagver : Version)
  | pushBranch (r : RepoId) (relver : Version)
  | pushTag (r : RepoId) (tagver : Version)
  | subUpdate (r : RepoId) (tagver : Version)
  | copyNotes (tagver : Version)
  | updateLatestLink (tagver : Version)
  | stagePaths
  | commitRelease (relver tagver : Version)
  | cutBranch (r : RepoId) (ver : Version)
  | writeState (ver : Version)
  | updateCharts (ver : Version)
  | finalizeCharts (ver : Version)
  | openFinishPR (ver : Version)
deriving Repr, DecidableEq

/-- Whether an event is a mutation of the superproject (`s3gw`): a tag,
push, submodule pin, notes copy, staging or commit on the `s3gw`
repository. -/
def Event.isSuper : Event → Bool
  | .tag r _ _ => r == .s3gw
  | .pushBranch r _ => r == .s3gw
  | .pushTag r _ => r == .s3gw
  | .subUpdate _ _ => true
  | .copyNotes _ => true
  | .updateLatestLink _ => true
  | .stagePaths => true
  | .commitRelease _ _ => true
  | _ => false

/-- Outcome of `set_submodule_head` for one submodule
(`src/release/process/submodules.rs`): error, no change, or a changed
path. -/
inductive SubRes where
  | failed
  | unchanged
  | changed
deriving Repr, DecidableEq

/-- `ReleaseWorkflowStatus` from `src/release/status.rs`. -/
inductive WorkflowStatus where
  | unknown
  | queued
  | inprogress
  | completed
deriving Repr, DecidableEq

/-- The fields of `ReleaseWorkflowResult` consulted by the validation gate
(`src/release/status.rs`). -/
structure WorkflowRun where
  status : WorkflowStatus
  success : Bool
deriving Repr, DecidableEq

/-- `ReleaseWorkflowResult::is_waiting` (`src/release/status.rs`). -/
def WorkflowRun.is_waiting (r : WorkflowRun) : Bool :=
  match r.status with
  | .inprogress | .queued => true
  | _ => false

/-- `ReleaseWorkflowResult::is_failed` (`src/release/status.rs`), verbatim:
when not waiting it returns `self.success` (not its negation). -/
def WorkflowRun.is_failed (r : WorkflowRun) : Bool :=
  if r.is_waiting then false else r.success

/-- Per-repository view used by the orchestrator: the tag version map
(`Repository::get_versions`) and the release-branch map
(`Repository::get_release_branches`), both keyed by `version_id`. -/
structure RepoState where
  tags : KVMap Version
  branches : KVMap Version
deriving Repr, DecidableEq

/-- The four repositories' views. -/
structure WsState where
  s3gw : RepoState
  ui : RepoState
  charts : RepoState
  ceph : RepoState
deriving Repr, DecidableEq

/-- Select a repository's view. -/
def WsState.repo (st : WsState) : RepoId → RepoState
  | .s3gw => st.s3gw
  | .ui => st.ui
  | .charts => st.charts
  | .ceph => st.ceph

/-- Outcomes of the side-effecting operations the orchestrator invokes. -/
structure Oracle where
  wsSyncOk : Bool
  branchesOk : RepoId → Bool
  promptAnswer : Option Bool
  cutOk : RepoId → Bool
  writeOk : Bool
  relSyncOk : Bool
  tagOk : RepoId → Bool
  pushBranchOk : RepoId → Bool
  pushTagOk : RepoId → Bool
  subRes : RepoId → SubRes
  notesCopyOk : Bool
  latestLinkOk : Bool
  stageOk : Bool
  commitOk : Bool
  chartsUpdateOk : Bool
  chartsFinalizeOk : Bool
  finishBranchOk : Bool
  ciStatus : Option (Option WorkflowRun)

/-- `get_release_versions_from_repo` (`src/release/common.rs`): all known
tag versions whose id lies in `[relver.min().id, relver.max().id]`. -/
def get_release_versions_from_repo (rs : RepoState) (relver : Version) : KVMap Version :=
  rs.tags.filter (fun p =>
    decide (relver.min.get_version_id ≤ p.1) && decide (p.1 ≤ relver.max.get_version_id))

/-- `get_release_versions` (`src/release/common.rs`): the range query on the
superproject (`s3gw`) repository. -/
def get_release_versions (st : WsState) (relver : Version) : KVMap Version :=
  get_release_versions_from_repo st.s3gw relver

/-- One attempted operation: the mutation it would record, and `none` when
the oracle lets it succeed or the error it fails with. -/
abbrev Step := Event × Option ReleaseError

/-- Turn an oracle success bit into a step outcome. -/
def outc (b : Bool) (e : ReleaseError) : Option ReleaseError :=
  if b then none else some e

/-- Run a sequence of attempted operations: stop at the first failing one
(recording no event for it), as every step of the source propagates its
error with an early `return`. -/
def runSteps : List Step → List Event × RResult Unit
  | [] => ([], .ok ())
  | (ev, none) :: rest =>
    let r := runSteps rest
    (ev :: r.1, r.2)
  | (_, some e) :: _ => ([], .error e)

/-! ## `perform_release` (`src/release/process/start.rs`) -/

/-- First loop of `perform_release`: `tag_release_branch` on each dependent
repository (ui, charts, ceph), failing with `TaggingError`. -/
def tagPlan (o : Oracle) (relver nv : Version) : List Step :=
  depRepos.map (fun r => (Event.tag r relver nv, outc (o.tagOk r) .TaggingError))

/-- Second loop of `perform_release`: `push_release_branch` then
`push_release_tag` on each dependent repository, failing with
`PushingError`. -/
def pushPlan (o : Oracle) (relver nv : Version) : List Step :=
  depRepos.flatMap (fun r =>
    [(Event.pushBranch r relver, outc (o.pushBranchOk r) .PushingError),
     (Event.pushTag r nv, outc (o.pushTagOk r) .PushingError)])

/-- The dependent-repository phase of `perform_release`. -/
def depPlan (o : Oracle) (relver nv : Version) : List Step :=
  tagPlan o relver nv ++ pushPlan o relver nv

/-- Whether `paths_to_add` ends up non-empty: some submodule pin changed, or
release notes were supplied (which always adds the notes file and the
`latest` symlink). -/
def pathsNonempty (o : Oracle) (withNotes : Bool) : Bool :=
  (depRepos.any (fun r => o.subRes r == .changed)) || withNotes

/-- The superproject phase of `perform_release`: pin submodules
(`update_submodules`), optionally install the release notes and the
`latest` symlink, stage when there is anything to stage, commit
(`commit_release`, which in `src/ws/repository.rs` also creates the release
tag on `s3gw`, ignoring a tagging failure), then push the release branch
and the release tag of `s3gw`. -/
def superPlan (o : Oracle) (relver nv : Version) (withNotes : Bool) : List Step :=
  (depRepos.map (fun r =>
    (Event.subUpdate r nv,
      if o.subRes r == .failed then some ReleaseError.SubmoduleError else none)))
  ++ (if withNotes then
        [(Event.copyNotes nv, outc o.notesCopyOk .UnknownError),
         (Event.updateLatestLink nv, outc o.latestLinkOk .UnknownError)]
      else [])
  ++ (if pathsNonempty o withNotes then
        [(Event.stagePaths, outc o.stageOk .StagingError)]
      else [])
  ++ [(Event.commitRelease relver nv, outc o.commitOk .CommittingError)]
  ++ (if o.tagOk .s3gw then [(Event.tag .s3gw relver nv, none)] else [])
  ++ [(Event.pushBranch .s3gw relver, outc (o.pushBranchOk .s3gw) .PushingError),
      (Event.pushTag .s3gw nv, outc (o.pushTagOk .s3gw) .PushingError)]

/-- `perform_release` (`src/release/process/start.rs`): the dependent
phase, then the superproject phase. -/
def perform_release (o : Oracle) (relver nv : Version) (withNotes : Bool) :
    List Event × RResult Unit :=
  runSteps (depPlan o relver nv ++ superPlan o relver nv withNotes)

/-! ## `start_release_candidate` and `start` (`src/release/process/start.rs`) -/

/-- `start_release_candidate`: compute the next rc from the highest version
in the superproject's range (`1` when the range is empty; an error, doing
nothing, when the highest version has no rc), then `perform_release` with
`relver` extended by that rc. -/
def start_release_candidate (o : Oracle) (st : WsState) (relver : Version)
    (withNotes : Bool) : List Event × RResult Version :=
  let avail := get_release_versions st relver
  match avail.getLast? with
  | none =>
    let nv := { relver with rc := some 1 }
    match perform_release o relver nv withNotes with
    | (tr, .ok _) => (tr, .ok nv)
    | (tr, .error e) => (tr, .error e)
  | some (_, v) =>
    match v.rc with
    | none => ([], .error .UnknownError)
    | some rc =>
      let nv := { relver with rc := some (rc + 1) }
      match perform_release o relver nv withNotes with
      | (tr, .ok _) => (tr, .ok nv)
      | (tr, .error e) => (tr, .error e)

/-- `maybe_cut_branches`: which repositories lack the base release branch.
The source aborts with `UnknownError` on the first repository whose branch
listing fails (the collapsed `all` check is outcome-equal since the error
does not identify the repository); cutting for a strict subset of the
repositories is `CorruptedError`; the operator prompt may confirm, refuse
(`AbortedError`) or fail (`UnknownError`). -/
def maybe_cut_branches (o : Oracle) (st : WsState) (version : Version) :
    RResult (Option (List RepoId)) :=
  if ¬ allRepos.all o.branchesOk then .error .UnknownError
  else
    let baseId := version.get_base_version.get_version_id
    let toCut := allRepos.filter (fun r => ¬ containsKey baseId (st.repo r).branches)
    if toCut.length = 0 then .ok none
    else if toCut.length ≠ allRepos.length then .error .CorruptedError
    else
      match o.promptAnswer with
      | some true => .ok (some toCut)
      | some false => .error .AbortedError
      | none => .error .UnknownError

/-- `cut_branches_for`: `branch_version_from_default` on each repository. -/
def cut_branches_for (o : Oracle) (version : Version) (repos : List RepoId) :
    List Event × RResult Unit :=
  runSteps (repos.map (fun r => (Event.cutBranch r version, outc (o.cutOk r) .UnknownError)))

/-- `create_release_branches`: cut the missing branches if any; `true` when
branches were cut. -/
def create_release_branches (o : Oracle) (st : WsState) (version : Version) :
    List Event × RResult Bool :=
  match maybe_cut_branches o st version with
  | .error e => ([], .error e)
  | .ok none => ([], .ok false)
  | .ok (some repos) =>
    match cut_branches_for o version repos with
    | (tr, .ok _) => (tr, .ok true)
    | (tr, .error e) => (tr, .error e)

/-- `start` (`src/release/process/start.rs`): sync the workspace; fail with
`ReleaseExistsError` when the superproject's range holds a version equal
(by `version_id`) to the requested one, with `ReleaseStartedError` when the
range is otherwise non-empty, and with `CorruptedError` when any repository
has versions in range (the superproject's range being empty at that point);
then cut branches, persist the release state, sync the release and start
`rc1`, treating any other resulting candidate as corruption. -/
def start (o : Oracle) (st : WsState) (version : Version) :
    List Event × RResult Unit :=
  if o.wsSyncOk = false then ([], .error .SyncError) else
  let avail := get_release_versions st version
  if avail.any (fun p => Version.rustEq p.2 version) then ([], .error .ReleaseExistsError)
  else if 0 < avail.length then ([], .error .ReleaseStartedError)
  else if 0 < (allRepos.filter (fun r =>
      0 < (get_release_versions_from_repo (st.repo r) version).length)).length then
    ([], .error .CorruptedError)
  else
    match create_release_branches o st version with
    | (tr, .error e) => (tr, .error e)
    | (tr, .ok _) =>
      if o.writeOk = false then (tr, .error .UnknownError)
      else
        let tr := tr ++ [Event.writeState version]
        if o.relSyncOk = false then (tr, .error .SyncError)
        else
          match start_release_candidate o st version true with
          | (tr2, .error e) => (tr ++ tr2, .error e)
          | (tr2, .ok ver) =>
            (tr ++ tr2,
              match ver.rc with
              | some rc => if rc ≠ 1 then .error .CorruptedError else .ok ()
              | none => .error .CorruptedError)

/-! ## `finish` (`src/release/process/finish.rs`) -/

/-- `finish` (`src/release/process/finish.rs`): existence checks on the
superproject's range, release sync, pick the highest candidate, update the
Helm chart (`update_charts`: rewrite + stage + commit in the charts
repository), run `perform_release` with the final version as both release
and tag version and no notes, publish the chart's final branch
(`finalize_charts_release`) and open the finishing pull request
(`finish_s3gw_update_default`, modelled as one composite step). It
consults no CI status and takes no force flag. -/
def finish (o : Oracle) (st : WsState) (version : Version) :
    List Event × RResult Unit :=
  let rv := get_release_versions st version
  if containsKey version.get_version_id rv then ([], .error .ReleaseExistsError)
  else if rv.length = 0 then ([], .error .NotStartedError)
  else if o.relSyncOk = false then ([], .error .SyncError)
  else
    match rv.getLast? with
    | none => ([], .error .CorruptedError)
    | some _ =>
      if o.chartsUpdateOk = false then ([], .error .UnknownError)
      else
        let tr := [Event.updateCharts version]
        match perform_release o version version false with
        | (tr2, .error e) => (tr ++ tr2, .error e)
        | (tr2, .ok _) =>
          let tr := tr ++ tr2
          if o.chartsFinalizeOk = false then (tr, .error .UnknownError)
          else
            let tr := tr ++ [Event.finalizeCharts version]
            if o.finishBranchOk = false then (tr, .error .UnknownError)
            else (tr ++ [Event.openFinishPR version], .ok ())

/-! ## `check_can_release` (`src/release/process/validate.rs`) -/

/-- `check_can_release`, parameterized by the superproject's range for the
requested version (`get_release_versions`) and by the result of
`get_release_status` on the highest candidate (`none` models the status
fetch failing, `some none` no workflow run found). -/
def check_can_release (rv : KVMap Version) (version : Version)
    (ciStatus : Option (Option WorkflowRun)) (force : Bool) : RResult Unit :=
  if containsKey version.get_version_id rv then .error .ReleaseExistsError
  else if rv.length = 0 then .error .NotStartedError
  else
    match ciStatus with
    | none => .error .UnknownError
    | some none => if force then .ok () else .error .ReleaseBuildNotFoundError
    | some (some s) =>
      if s.is_waiting then
        (if force then .ok () else .error .ReleaseBuildOnGoingError)
      else if s.is_failed then
        (if force then .ok () else .error .ReleaseBuildFailedError)
      else .ok ()

/-! ## The `Start` command dispatch (`src/release/cmds.rs`) -/

/-- How the `Start` command handler returns. -/
inductive StartCmdOutcome where
  | parseFailed
  | badNotesFile
  | ongoingReleaseGuidance
  | ran (r : RResult Unit)
deriving Repr, DecidableEq

/-- The `Cmds::Start` arm of `handle_cmds` (`src/release/cmds.rs`): parse
the version string, check the notes file, and — when a `ReleaseState`
already exists — print guidance and return without invoking
`process::start::start`. -/
def handle_start_cmd (o : Oracle) (st : WsState) (relState : Option Version)
    (versionStr : String) (notesFileOk : Bool) : List Event × StartCmdOutcome :=
  match Version.from_str versionStr with
  | none => ([], .parseFailed)
  | some version =>
    if ¬ notesFileOk then ([], .badNotesFile)
    else
      match relState with
      | some _ => ([], .ongoingReleaseGuidance)
      | none =>
        let (tr, r) := start o st version
        (tr, .ran r)

/-- C7: on branches `["s3gw-v1.2"]` and tags
`["v1.2.0-rc1", "v1.2.0", "v1.2.1-rc1", "v9.9.0"]` with patterns
`^s3gw-v(\d+\.\d+)$` and `^v(\d+\.\d+\.\d+.*)$`, `get_releases` yields
exactly one `BaseVersion` (1.2) holding exactly two `ReleaseEntry`s:
1.2.0 (complete, containing 1.2.0-rc1 and 1.2.0) and 1.2.1 (incomplete,
containing 1.2.1-rc1); the tag `v9.9.0` is dropped since base branch 9.9
is absent. -/
theorem c7_get_releases_tree :
    getReleases capBranchS3gw capTagV ["s3gw-v1.2".data]
      ["v1.2.0-rc1".data, "v1.2.0".data, "v1.2.1-rc1".data, "v9.9.0".data] =
    some [(1002999999,
      { version := ⟨1, 2, none, none⟩
        releases := [(1002000999,
            { release := ⟨1, 2, some 0, none⟩
              versions := [(1002000001, ⟨1, 2, some 0, some 1⟩),
                           (1002000999, ⟨1, 2, some 0, none⟩)]
              is_complete := true }),
          (1002001999,
            { release := ⟨1, 2, some 1, none⟩
              versions := [(1002001001, ⟨1, 2, some 1, some 1⟩)]
              is_complete := false })] })] := by
  decide

/-- C5 counterexample: for the base version `1.2` (patch and rc absent), the
claim asserts `v ≠ v.max()`; but the code's `PartialEq` compares
`get_version_id`, which encodes absent patch/rc as `999` — the very values
`max()` fills in — so `1.2` and `1.2.999-rc999` are equal. -/
theorem c5_counterexample :
    Version.rustEq ⟨1, 2, none, none⟩ (Version.max ⟨1, 2, none, none⟩) = true := by
  decide

/-- C5 (amended): for every base version `v` (patch = None and rc = None),
`v` IS equal to `v.max()` under the code's id-based equality, because
`get_version_id` treats absent patch/rc as `999`, the same values `max()`
fills in. -/
theorem c5_base_version_equals_max (v : Version)
    (hp : v.patch = none) (hr : v.rc = none) :
    Version.rustEq v v.max = true := by
  simp [Version.rustEq, max_get_version_id]

/-- Witness for C5: the base version `1.2`. -/
theorem c5_base_version_equals_max_witness :
    Version.rustEq ⟨1, 2, none, none⟩ (Version.max ⟨1, 2, none, none⟩) = true :=
  c5_base_version_equals_max ⟨1, 2, none, none⟩ rfl rfl

/-- C6 counterexample: with unbounded components, `get_version_id` is not
strictly monotonic in the `(major, minor, patch-or-999, rc-or-999)`
lexicographic order: `0.1000.0-rc0` is lexicographically below `1.0.0-rc0`
but both have id `10⁹`. -/
theorem c6_counterexample :
    lexLt ⟨0, 1000, some 0, some 0⟩ ⟨1, 0, some 0, some 0⟩ ∧
      ¬ (Version.get_version_id ⟨0, 1000, some 0, some 0⟩ <
          Version.get_version_id ⟨1, 0, some 0, some 0⟩) := by
  decide

/-- C6 (amended): `get_version_id` is strictly monotonic in the
`(major, minor, patch-or-999, rc-or-999)` lexicographic order provided, for
both versions, each of `minor`, `patch-or-999`, `rc-or-999` is at most
`999` (each component fits its base-1000 digit) and `major` is at most
`18446744072` — the largest major for which the `u64` computation of the
id cannot wrap under the other bounds. -/
theorem c6_version_id_strict_mono (a b : Version)
    (ha0 : a.major ≤ 18446744072)
    (ha1 : a.minor ≤ 999) (ha2 : a.patch.getD 999 ≤ 999) (ha3 : a.rc.getD 999 ≤ 999)
    (hb0 : b.major ≤ 18446744072)
    (hb1 : b.minor ≤ 999) (hb2 : b.patch.getD 999 ≤ 999) (hb3 : b.rc.getD 999 ≤ 999)
    (hlt : lexLt a b) :
    a.get_version_id < b.get_version_id := by
  unfold Version.get_version_id
  have h64 : (2 : ℕ) ^ 64 = 18446744073709551616 := by norm_num
  rw [h64, Nat.mod_eq_of_lt (by omega), Nat.mod_eq_of_lt (by omega)]
  rcases hlt with h | ⟨h1, h | ⟨h2, h | ⟨h3, h⟩⟩⟩ <;> omega

/-- Witness for C6: `1.2.3-rc1` is lexicographically below `1.2.3`, and its
id is smaller. -/
theorem c6_version_id_strict_mono_witness :
    Version.get_version_id ⟨1, 2, some 3, some 1⟩ <
      Version.get_version_id ⟨1, 2, some 3, none⟩ :=
  c6_version_id_strict_mono ⟨1, 2, some 3, some 1⟩ ⟨1, 2, some 3, none⟩
    (by decide) (by decide) (by decide) (by decide)
    (by decide) (by decide) (by decide) (by decide)
    (by decide)

/-! ## Concrete states and oracles used by several closed statements -/

/-- The release version `1.0.0`. -/
def v100 : Version := ⟨1, 0, some 0, none⟩

/-- A repository with no tags and no release branches. -/
def emptyRepo : RepoState := ⟨[], []⟩

/-- A workspace whose superproject holds exactly the candidate `1.0.0-rc1`
(tag id `1000000001`) on release branch `1.0`. -/
def stRc1 : WsState :=
  ⟨⟨[(1000000001, ⟨1, 0, some 0, some 1⟩)], [(1000999999, ⟨1, 0, none, none⟩)]⟩,
   emptyRepo, emptyRepo, emptyRepo⟩

/-- A workspace whose superproject already carries the final tag `1.0.0`. -/
def stFinal : WsState :=
  ⟨⟨[(1000000999, ⟨1, 0, some 0, none⟩)], [(1000999999, ⟨1, 0, none, none⟩)]⟩,
   emptyRepo, emptyRepo, emptyRepo⟩

/-- An oracle under which every git/filesystem operation succeeds, while the
CI status provider reports the previous candidate's release workflow as
still in progress. -/
def allOkOracle : Oracle :=
  { wsSyncOk := true
    branchesOk := fun _ => true
    promptAnswer := some true
    cutOk := fun _ => true
    writeOk := true
    relSyncOk := true
    tagOk := fun _ => true
    pushBranchOk := fun _ => true
    pushTagOk := fun _ => true
    subRes := fun _ => .changed
    notesCopyOk := true
    latestLinkOk := true
    stageOk := true
    commitOk := true
    chartsUpdateOk := true
    chartsFinalizeOk := true
    finishBranchOk := true
    ciStatus := some (some ⟨.inprogress, false⟩) }

/-! ## C1: `start` precondition checks -/

/-- C1: with a synchronized workspace, `start` fails with
`ReleaseExistsError` when the superproject's range for `version` holds a
version with the same `version_id`; with `ReleaseStartedError` when the
range is otherwise non-empty; and with `CorruptedError` when the
superproject's range is empty while some repository's range is not — and
in all three cases it performs no mutation (no branch cut, no state
write, no tag or push). -/
theorem c1_start_precondition_errors (o : Oracle) (st : WsState) (version : Version)
    (hsync : o.wsSyncOk = true) :
    ((get_release_versions st version).any (fun p => Version.rustEq p.2 version) = true →
       start o st version = ([], .error .ReleaseExistsError)) ∧
    ((get_release_versions st version).any (fun p => Version.rustEq p.2 version) = false →
       get_release_versions st version ≠ [] →
       start o st version = ([], .error .ReleaseStartedError)) ∧
    (get_release_versions st version = [] →
       (∃ r ∈ allRepos, get_release_versions_from_repo (st.repo r) version ≠ []) →
       start o st version = ([], .error .CorruptedError)) := by
  refine ⟨?_, ?_, ?_⟩
  · intro h
    simp [start, hsync, h]
  · intro h hne
    have hlen : 0 < (get_release_versions st version).length :=
      List.length_pos.mpr hne
    simp [start, hsync, h, hlen]
  · intro hemp hex
    have hfil : (allRepos.filter (fun r =>
        decide (0 < (get_release_versions_from_repo (st.repo r) version).length))) ≠ [] := by
      rcases hex with ⟨r, hr, hrne⟩
      intro hnil
      rw [List.filter_eq_nil_iff] at hnil
      exact absurd (by simpa using List.length_pos.mpr hrne) (by simpa using hnil r hr)
    have hlen : 0 < (allRepos.filter (fun r =>
        decide (0 < (get_release_versions_from_repo (st.repo r) version).length))).length :=
      List.length_pos.mpr hfil
    simp [start, hsync, hemp, hlen]

/-- Witness for C1: starting `1.0.0` on a workspace whose superproject
already carries the final tag `1.0.0`. -/
theorem c1_start_precondition_errors_witness :
    start allOkOracle stFinal v100 = ([], .error .ReleaseExistsError) :=
  (c1_start_precondition_errors allOkOracle stFinal v100 rfl).1 (by decide)

/-! ## C2: `start_release_candidate` rc computation -/

/-- C2: `start_release_candidate` produces a candidate with `rc = 1` when
the superproject's range for `relver` is empty; a candidate with
`rc = highest.rc + 1` when the highest version of the range has an rc; and
fails with an error, performing no mutation, when the highest version of
the range has no rc (the release is already final). -/
theorem c2_next_rc (o : Oracle) (st : WsState) (relver : Version) (withNotes : Bool) :
    ((get_release_versions st relver).getLast? = none →
       ∀ ver, (start_release_candidate o st relver withNotes).2 = .ok ver →
         ver.rc = some 1) ∧
    (∀ k v rc, (get_release_versions st relver).getLast? = some (k, v) →
       v.rc = some rc →
       ∀ ver, (start_release_candidate o st relver withNotes).2 = .ok ver →
         ver.rc = some (rc + 1)) ∧
    (∀ k v, (get_release_versions st relver).getLast? = some (k, v) →
       v.rc = none →
       start_release_candidate o st relver withNotes = ([], .error .UnknownError)) := by
  refine ⟨?_, ?_, ?_⟩
  · intro h ver hok
    simp only [start_release_candidate, h] at hok
    rcases hperf : perform_release o relver { relver with rc := some 1 } withNotes with ⟨tr, r⟩
    rw [hperf] at hok
    cases r with
    | ok a => cases hok; rfl
    | error e => simp at hok
  · intro k v rc hlast hrc ver hok
    simp only [start_release_candidate, hlast, hrc] at hok
    rcases hperf : perform_release o relver { relver with rc := some (rc + 1) } withNotes
      with ⟨tr, r⟩
    rw [hperf] at hok
    cases r with
    | ok a => cases hok; rfl
    | error e => simp at hok
  · intro k v hlast hrc
    simp only [start_release_candidate, hlast, hrc]

/-- Witness for C2: continuing `1.0.0` on a superproject holding exactly
`1.0.0-rc1` produces the candidate `1.0.0-rc2`. -/
theorem c2_next_rc_witness :
    Version.rc ⟨1, 0, some 0, some 2⟩ = some (1 + 1) :=
  (c2_next_rc allOkOracle stRc1 v100 true).2.1 1000000001 ⟨1, 0, some 0, some 1⟩ 1
    (by decide) rfl ⟨1, 0, some 0, some 2⟩ (by decide)

/-! ## C3: dependent repositories are mutated before the superproject -/

/-- The complete dependent-repository mutation sequence of
`perform_release`: tag ui, charts, ceph; then push branch and tag of ui,
charts, ceph, in that order. -/
def depSeq (relver nv : Version) : List Event :=
  [Event.tag .ui relver nv, Event.tag .charts relver nv, Event.tag .ceph relver nv,
   Event.pushBranch .ui relver, Event.pushTag .ui nv,
   Event.pushBranch .charts relver, Event.pushTag .charts nv,
   Event.pushBranch .ceph relver, Event.pushTag .ceph nv]

/-- The trace of a step run is the events of the longest all-succeeding
step sequence preceding everything else. -/
theorem runSteps_trace (l : List Step) :
    (runSteps l).1 = (l.takeWhile (fun s => s.2.isNone)).map Prod.fst := by
  induction l with
  | nil => rfl
  | cons hd tl ih =>
    rcases hd with ⟨ev, o⟩
    cases o with
    | none => simp [runSteps, List.takeWhile_cons, ih]
    | some e => simp [runSteps, List.takeWhile_cons]

/-- `takeWhile` walks through a wholly satisfying first segment. -/
theorem takeWhile_append_all {α} {p : α → Bool} {a b : List α}
    (h : ∀ x ∈ a, p x = true) :
    (a ++ b).takeWhile p = a ++ b.takeWhile p := by
  induction a with
  | nil => simp
  | cons hd tl ih =>
    have hhd : p hd = true := h hd (by simp)
    simp only [List.cons_append, List.takeWhile_cons, hhd, if_true]
    rw [ih (fun x hx => h x (by simp [hx]))]

/-- `takeWhile` stops inside a first segment that contains a failure. -/
theorem takeWhile_append_stop {α} {p : α → Bool} {a b : List α}
    (h : ∃ x ∈ a, p x = false) :
    (a ++ b).takeWhile p = a.takeWhile p := by
  induction a with
  | nil => rcases h with ⟨x, hx, _⟩; cases hx
  | cons hd tl ih =>
    by_cases hph : p hd = true
    · simp only [List.cons_append, List.takeWhile_cons, hph, if_true]
      rw [ih ?_]
      rcases h with ⟨x, hx, hpx⟩
      rcases List.mem_cons.mp hx with rfl | hx'
      · rw [hph] at hpx; cases hpx
      · exact ⟨x, hx', hpx⟩
    · have hf : p hd = false := by
        cases hv : p hd
        · rfl
        · exact absurd hv hph
      simp [List.takeWhile_cons, hf]

/-- Elements of `takeWhile` come from the list. -/
theorem mem_of_mem_takeWhile {α} {p : α → Bool} {l : List α} {x : α}
    (h : x ∈ l.takeWhile p) : x ∈ l := by
  induction l with
  | nil => simpa using h
  | cons hd tl ih =>
    rw [List.takeWhile_cons] at h
    by_cases hp : p hd = true
    · rw [if_pos hp] at h
      rcases List.mem_cons.mp h with rfl | h'
      · exact List.mem_cons_self _ _
      · exact List.mem_cons_of_mem _ (ih h')
    · rw [if_neg hp] at h
      cases h

/-- The events of the dependent phase, in order, are exactly `depSeq`. -/
theorem depPlan_map_fst (o : Oracle) (relver nv : Version) :
    (depPlan o relver nv).map Prod.fst = depSeq relver nv := rfl

/-- Every step of the superproject phase mutates the superproject. -/
theorem superPlan_isSuper (o : Oracle) (relver nv : Version) (withNotes : Bool) :
    ∀ s ∈ superPlan o relver nv withNotes, (Prod.fst s).isSuper = true := by
  intro s hs
  unfold superPlan at hs
  rcases List.mem_append.mp hs with h5 | h
  · rcases List.mem_append.mp h5 with h4 | h
    · rcases List.mem_append.mp h4 with h3 | h
      · rcases List.mem_append.mp h3 with h2 | h
        · rcases List.mem_append.mp h2 with h1 | h
          · rcases List.mem_map.mp h1 with ⟨r, _, rfl⟩
            rfl
          · cases withNotes with
            | false => simp at h
            | true =>
              rw [if_pos rfl] at h
              rcases List.mem_cons.mp h with rfl | h
              · rfl
              rcases List.mem_cons.mp h with rfl | h
              · rfl
              · simp at h
        · by_cases hp : pathsNonempty o withNotes = true
          · rw [if_pos hp] at h
            rcases List.mem_cons.mp h with rfl | h
            · rfl
            · simp at h
          · rw [if_neg hp] at h
            simp at h
      · rcases List.mem_cons.mp h with rfl | h
        · rfl
        · simp at h
    · by_cases ht : o.tagOk .s3gw = true
      · rw [if_pos ht] at h
        rcases List.mem_cons.mp h with rfl | h
        · rfl
        · simp at h
      · rw [if_neg ht] at h
        simp at h
  · rcases List.mem_cons.mp h with rfl | h
    · rfl
    rcases List.mem_cons.mp h with rfl | h
    · rfl
    · simp at h

/-- C3: in every execution of `perform_release` — including those ending in
an error — the recorded mutation trace is either a prefix of the dependent
sequence (no superproject mutation happened at all), or the complete
dependent sequence (every dependent repository tagged and its branch and
tag pushed, ui then charts then ceph) followed only by superproject
mutations. -/
theorem c3_dependents_before_superproject (o : Oracle) (relver nv : Version)
    (withNotes : Bool) :
    (∃ t, (perform_release o relver nv withNotes).1 ++ t = depSeq relver nv) ∨
    (∃ rest, (perform_release o relver nv withNotes).1 = depSeq relver nv ++ rest ∧
       ∀ e ∈ rest, e.isSuper = true) := by
  by_cases hall : ∀ s ∈ depPlan o relver nv, (fun s : Step => s.2.isNone) s = true
  · right
    refine ⟨((superPlan o relver nv withNotes).takeWhile
      (fun s => s.2.isNone)).map Prod.fst, ?_, ?_⟩
    · rw [perform_release, runSteps_trace, takeWhile_append_all hall, List.map_append,
        depPlan_map_fst]
    · intro e he
      rcases List.mem_map.mp he with ⟨s, hs, rfl⟩
      exact superPlan_isSuper o relver nv withNotes s (mem_of_mem_takeWhile hs)
  · left
    push_neg at hall
    rcases hall with ⟨s, hs, hns⟩
    have hfalse : (fun s : Step => s.2.isNone) s = false := by
      cases hsn : (fun s : Step => s.2.isNone) s
      · rfl
      · exact absurd hsn hns
    have hstop : ∃ x ∈ depPlan o relver nv, (fun s : Step => s.2.isNone) x = false :=
      ⟨s, hs, hfalse⟩
    refine ⟨((depPlan o relver nv).dropWhile (fun s => s.2.isNone)).map Prod.fst, ?_⟩
    rw [perform_release, runSteps_trace, takeWhile_append_stop hstop, ← List.map_append,
      List.takeWhile_append_dropWhile, depPlan_map_fst]

/-! ## C4: `finish` has no CI validation gate -/

/-- C4 (code bug): `finish` consults no CI status and accepts no force
flag: on a workspace whose only candidate `1.0.0-rc1` has its release
workflow still in progress, and with no force given, it nevertheless
proceeds to tag and push everything and succeeds. (`check_can_release`,
which implements exactly the claimed gate, has no caller; `cmds.rs` passes
`finish_cmd.force` to a `finish` that does not take it.) -/
theorem c4_finish_ignores_ci_gate :
    (finish allOkOracle stRc1 v100).2 = .ok () ∧
      Event.tag .ui v100 v100 ∈ (finish allOkOracle stRc1 v100).1 ∧
      Event.pushTag .s3gw v100 ∈ (finish allOkOracle stRc1 v100).1 := by
  decide

/-! ## C8: the validation gate's failed-build check is inverted -/

/-- C8 (code bug): `check_can_release` without force blocks when the
previous candidate's run is queued or in progress (as claimed), but for a
completed run it returns `ReleaseBuildFailedError` exactly when the run
SUCCEEDED and passes when it failed: `is_failed` returns `self.success`
instead of its negation. -/
theorem c8_gate_failed_check_inverted :
    check_can_release [(1000000001, ⟨1, 0, some 0, some 1⟩)] v100
        (some (some ⟨.completed, true⟩)) false = .error .ReleaseBuildFailedError ∧
      check_can_release [(1000000001, ⟨1, 0, some 0, some 1⟩)] v100
        (some (some ⟨.completed, false⟩)) false = .ok () ∧
      check_can_release [(1000000001, ⟨1, 0, some 0, some 1⟩)] v100
        (some (some ⟨.inprogress, false⟩)) false = .error .ReleaseBuildOnGoingError ∧
      check_can_release [(1000000001, ⟨1, 0, some 0, some 1⟩)] v100
        (some (some ⟨.inprogress, false⟩)) true = .ok () ∧
      check_can_release [(1000000001, ⟨1, 0, some 0, some 1⟩)] v100
        (some (some ⟨.completed, true⟩)) true = .ok () := by
  decide

/-! ## C9: the chart version-file rewrite (`src/release/process/charts.rs`) -/

/-- `ChartsError` from `src/release/errors.rs`. -/
inductive ChartsError where
  | DoesNotExistError
  | ParsingError
  | StagingError
  | CommitError
  | UnknownError
deriving Repr, DecidableEq

/-- Rust `Result<α, ChartsError>`. -/
inductive CResult (α : Type) where
  | ok (a : α)
  | error (e : ChartsError)
deriving Repr, DecidableEq

/-- `BufRead::lines` semantics, with the accumulator holding the current
line reversed: each yielded line has its terminating `\n` removed, and a
`\r` immediately before that `\n` is removed too; a final line without a
terminator is yielded as-is. -/
def rustLinesAux : List Char → List Char → List (List Char)
  | [], acc => if acc = [] then [] else [acc.reverse]
  | c :: rest, acc =>
    if c = '\n' then
      (if acc.head? = some '\r' then acc.tail else acc).reverse :: rustLinesAux rest []
    else rustLinesAux rest (c :: acc)

/-- The lines of a file's bytes, as `BufRead::lines` yields them. -/
def rustLines (s : List Char) : List (List Char) :=
  rustLinesAux s []

/-- The capture of `^version:[ ]+(.*)$` on one line: the text after
`version:` and the (maximal) run of at least one space. -/
def capVersionLine (l : List Char) : Option (List Char) :=
  match stripPrefixChars "version:".data l with
  | none => none
  | some rest =>
    if rest.takeWhile (· = ' ') = [] then none
    else some (rest.dropWhile (· = ' '))

/-- Per-line processing of `chart_update_version`: a matching line has its
captured version parsed (a parse failure aborts with `ParsingError`) and is
replaced by `version: <new>`; any other line is kept unchanged. -/
def processLines (ver : Version) : List (List Char) → CResult (List (List Char))
  | [] => .ok []
  | l :: ls =>
    match capVersionLine l with
    | some cap =>
      match parseChars cap with
      | none => .error .ParsingError
      | some _ =>
        match processLines ver ls with
        | .ok rest => .ok (("version: ".data ++ displayChars ver) :: rest)
        | .error e => .error e
    | none =>
      match processLines ver ls with
      | .ok rest => .ok (l :: rest)
      | .error e => .error e

/-- Concatenate lines, terminating every line with `\n` — the writing loop
of `chart_update_version` appends `\n` to every line it writes. -/
def joinLinesLF : List (List Char) → List Char
  | [] => []
  | l :: ls => l ++ '\n' :: joinLinesLF ls

/-- `chart_update_version` (`src/release/process/charts.rs`) as a function
from the chart file's bytes to the replacement file's bytes: on an error
the original file is left in place (the temporary file is never renamed
over it). -/
def chart_update_version (content : List Char) (ver : Version) : CResult (List Char) :=
  match processLines ver (rustLines content) with
  | .ok ls => .ok (joinLinesLF ls)
  | .error e => .error e

/-- What one line becomes in the rewritten file. -/
def rewriteLine (ver : Version) (l : List Char) : List Char :=
  match capVersionLine l with
  | some _ => "version: ".data ++ displayChars ver
  | none => l

/-- C9 counterexample: on the one-line file `"x"` with no terminating
newline — a file with no matching line at all — the rewrite outputs
`"x\n"`: a byte of the file changed even though no line matched, because
the writing loop terminates every line with `\n`. -/
theorem c9_counterexample :
    chart_update_version ['x'] ⟨1, 0, some 0, none⟩ = .ok ['x', '\n'] ∧
      (['x', '\n'] : List Char) ≠ ['x'] := by
  decide

/-- Reading back a file whose every line was written LF-terminated yields
those lines. -/
theorem rustLinesAux_append {l : List Char} (hnl : '\n' ∉ l) (rest acc : List Char) :
    rustLinesAux (l ++ rest) acc = rustLinesAux rest (l.reverse ++ acc) := by
  induction l generalizing acc with
  | nil => simp
  | cons c l ih =>
    have hc : ¬ c = '\n' := fun h => hnl (h ▸ List.mem_cons_self c l)
    have hnl' : '\n' ∉ l := fun h => hnl (List.mem_cons_of_mem c h)
    simp only [List.cons_append, rustLinesAux, if_neg hc, List.append_eq]
    rw [ih hnl', List.reverse_cons, List.append_assoc]
    rfl

/-- `rustLines` is a left inverse of `joinLinesLF` for lines without inner
newlines or trailing carriage returns. -/
theorem rustLines_joinLinesLF (ls : List (List Char))
    (hnl : ∀ l ∈ ls, '\n' ∉ l)
    (hcr : ∀ l ∈ ls, l.getLast? ≠ some '\r') :
    rustLines (joinLinesLF ls) = ls := by
  induction ls with
  | nil => rfl
  | cons l ls ih =>
    have hl : '\n' ∉ l := hnl l (List.mem_cons_self l ls)
    have hlcr : l.getLast? ≠ some '\r' := hcr l (List.mem_cons_self l ls)
    rw [joinLinesLF, rustLines, rustLinesAux_append hl]
    simp only [rustLinesAux, if_pos rfl, List.append_nil]
    rw [List.head?_reverse] at *
    rw [if_neg hlcr, List.reverse_reverse]
    exact congrArg (l :: ·)
      (ih (fun x hx => hnl x (List.mem_cons_of_mem l hx))
        (fun x hx => hcr x (List.mem_cons_of_mem l hx)))

/-- When every matching line's capture parses, processing rewrites exactly
the matching lines and keeps all other lines unchanged. -/
theorem processLines_map (ver : Version) (ls : List (List Char))
    (hparse : ∀ l ∈ ls, ∀ cap, capVersionLine l = some cap →
      (parseChars cap).isSome = true) :
    processLines ver ls = .ok (ls.map (rewriteLine ver)) := by
  induction ls with
  | nil => rfl
  | cons l ls ih =>
    have ihr : processLines ver ls = .ok (ls.map (rewriteLine ver)) :=
      ih (fun x hx cap hc => hparse x (List.mem_cons_of_mem l hx) cap hc)
    cases hc : capVersionLine l with
    | none => simp [processLines, hc, ihr, rewriteLine, List.map_cons]
    | some cap =>
      have hps : (parseChars cap).isSome = true :=
        hparse l (List.mem_cons_self l ls) cap hc
      cases hpc : parseChars cap with
      | none => rw [hpc] at hps; cases hps
      | some v => simp [processLines, hc, hpc, ihr, rewriteLine, List.map_cons]

/-- C9 (amended): `chart_update_version` rewrites exactly the lines
matching `^version:[ ]+(.*)$` to the new version string and reproduces
every other line byte-for-byte, but terminates every output line with
`\n`: the output is byte-identical outside the matched lines only for
input whose every line is LF-terminated (trailing newline present, no
CRLF endings); otherwise the missing final newline is added (and CRLF
would be normalized to LF). Stated for such input: every line free of
inner newlines and not ending in `\r`, with every matching line's capture
parseable. -/
theorem c9_rewrite_preserves_other_lines (ver : Version) (ls : List (List Char))
    (hnl : ∀ l ∈ ls, '\n' ∉ l)
    (hcr : ∀ l ∈ ls, l.getLast? ≠ some '\r')
    (hparse : ∀ l ∈ ls, ∀ cap, capVersionLine l = some cap →
      (parseChars cap).isSome = true) :
    chart_update_version (joinLinesLF ls) ver =
      .ok (joinLinesLF (ls.map (rewriteLine ver))) := by
  rw [chart_update_version, rustLines_joinLinesLF ls hnl hcr, processLines_map ver ls hparse]

/-- Witness for C9: a three-line chart fragment where only the
`version:  1.0.0` line is rewritten. -/
theorem c9_rewrite_preserves_other_lines_witness :
    chart_update_version
        (joinLinesLF ["apiVersion: v2".data, "version:  1.0.0".data, "name: s3gw".data])
        ⟨1, 2, some 3, none⟩ =
      .ok (joinLinesLF
        (["apiVersion: v2".data, "version:  1.0.0".data, "name: s3gw".data].map
          (rewriteLine ⟨1, 2, some 3, none⟩))) :=
  c9_rewrite_preserves_other_lines ⟨1, 2, some 3, none⟩
    ["apiVersion: v2".data, "version:  1.0.0".data, "name: s3gw".data]
    (by decide) (by decide) (by decide)

/-! ## C10: `Start` with an existing release state is a no-op -/

/-- C10: when a `ReleaseState` already exists, the `Start` command handler
performs no mutation and never invokes the start transition, for every
requested version string (equal to the recorded version or not). -/
theorem c10_start_cmd_noop_with_state (o : Oracle) (st : WsState) (s : Version)
    (versionStr : String) (notesFileOk : Bool) :
    (handle_start_cmd o st (some s) versionStr notesFileOk).1 = [] ∧
      ∀ r, (handle_start_cmd o st (some s) versionStr notesFileOk).2 ≠ .ran r := by
  unfold handle_start_cmd
  cases h : Version.from_str versionStr with
  | none => simp
  | some v => by_cases hn : notesFileOk <;> simp [hn]

end S3gwArc
